import Mathlib

/-!
# Verification of `structural_context.py` (glycobase)

Shallow embedding of the two analysis functions `main_v_side_branch` and
`characterize_context` together with their shared taxonomic filtering step,
and proofs of the specification claims about them.

Strings of the Python source are modelled as Lean `String`s; character-level
scanning is carried out on their `List Char` representation.  The reference
table `df_species` (supplied by the external collaborator
`glycan_processing_helpers`, out of scope per the spec) is modelled as an
explicit `List GlycanRecord` parameter, and the external bond-extraction
collaborator `link_find` as a function parameter returning bond triples.
-/

namespace Glycobase

/-- A Python value appearing in a taxonomic column: either a string or some
non-string value (e.g. NaN), which `str(...)` coerces to its string form.
`reprStr` records that string form. -/
inductive PyVal where
  | pstr (s : String)
  | nonStr (reprStr : String)
deriving DecidableEq, Repr

/-- Python `str(k)`: the string itself, or the string form of a non-string. -/
def pyStr : PyVal → String
  | .pstr s => s
  | .nonStr r => r

/-- One row of the reference table `df_species`: columns `glycan`,
`kingdom`, `species`. -/
structure GlycanRecord where
  glycan : String
  kingdom : PyVal
  species : PyVal
deriving DecidableEq, Repr

/-- The substring predicate used by the taxonomic filter:
Python `taxonomy_value in str(k)`, on the `kingdom` column when
`taxonomy_filter == 'Kingdom'` and on the `species` column otherwise. -/
def matchesFilter (taxonomy_filter taxonomy_value : String) (r : GlycanRecord) : Bool :=
  if taxonomy_filter = "Kingdom" then
    decide (taxonomy_value.data <:+: (pyStr r.kingdom).data)
  else
    decide (taxonomy_value.data <:+: (pyStr r.species).data)

/-- The shared taxonomic filtering step (lines 11-22 and 42-52 of the source):
the whole table when `taxonomy_value == 'All'`, otherwise the rows whose
`kingdom` (resp. `species`) column contains `taxonomy_value` as a substring
of its string form. -/
def taxFilter (table : List GlycanRecord) (taxonomy_filter taxonomy_value : String) :
    List GlycanRecord :=
  if taxonomy_value = "All" then table
  else table.filter (matchesFilter taxonomy_filter taxonomy_value)

/-- Does the pattern match (as a literal) at position `i` of `s`?
Mirrors the regex engine's attempt of `glycoletter` at offset `i`. -/
def matchAt (pat s : List Char) (i : Nat) : Bool :=
  decide (i + pat.length ≤ s.length) && ((s.drop i).take pat.length == pat)

/-- Worker for `finditer`: scan from `pos`, emitting each leftmost
non-overlapping match start and resuming after it (one past it for a
zero-width match), exactly as `re.finditer` does for a literal pattern.
`fuel` bounds the recursion; `s.length + 2` steps always suffice. -/
def finditerAux (pat s : List Char) : Nat → Nat → List Nat
  | _, 0 => []
  | pos, fuel + 1 =>
    if matchAt pat s pos then
      pos :: finditerAux pat s (pos + max pat.length 1) fuel
    else if pos < s.length then
      finditerAux pat s (pos + 1) fuel
    else []

/-- Embedding of `[m.start() for m in re.finditer(glycoletter, s)]` for a literal
`glycoletter`: start positions of the leftmost non-overlapping matches, in
string order.  (Regex metacharacter interpretation is out of scope; the
spec notes the pattern is handed to the regex engine verbatim.) -/
def finditer (pat s : List Char) : List Nat :=
  finditerAux pat s 0 (s.length + 2)

/-- One step of the inner loop of `main_v_side_branch` (lines 29-35):
state is `(main, side, init)`; slice `s[init:i]`, classify, advance
`init` to the occurrence's start `i`. -/
def mvsStep (s : List Char) (acc : Nat × Nat × Nat) (i : Nat) : Nat × Nat × Nat :=
  let gly := (s.drop acc.2.2).take (i - acc.2.2)
  if gly.contains '[' && !gly.contains ']' then
    (acc.1, acc.2.1 + 1, i)
  else
    (acc.1 + 1, acc.2.1, i)

/-- The per-glycan body of `main_v_side_branch`: find all occurrence starts
of `glycoletter` and run the classification loop from `(0, 0, 0)`,
returning this glycan's `(main, side)` contribution. -/
def countOne (glycoletter s : List Char) : Nat × Nat :=
  let starts := finditer glycoletter s
  let r := starts.foldl (mvsStep s) (0, 0, 0)
  (r.1, r.2.1)

/-- Embedding of `main_v_side_branch(glycoletter, taxonomy_filter, taxonomy_value)`
(lines 8-37 of the source): filter the table, then accumulate the
main-chain and side-branch counts over every glycan string. -/
def main_v_side_branch (table : List GlycanRecord)
    (glycoletter taxonomy_filter taxonomy_value : String) : Nat × Nat :=
  let glycan_list := (taxFilter table taxonomy_filter taxonomy_value).map (·.glycan)
  glycan_list.foldl
    (fun acc g =>
      let r := countOne glycoletter.data g.data
      (acc.1 + r.1, acc.2 + r.2))
    (0, 0)

/-! ## Spec-side reformulation of the Main/Side Counter (for claim C1)

The spec describes the classification occurrence-by-occurrence: pair each
occurrence start with the previous occurrence's start (the start of the
string for the first), look at the window between the two starts, and
classify by unmatched `[`. -/

/-- The scan window between a previous start `p.1` and a current start
`p.2`: the substring `s[p.1 : p.2]`. -/
def segWindow (s : List Char) (p : Nat × Nat) : List Char :=
  (s.drop p.1).take (p.2 - p.1)

/-- Spec classification of one occurrence: side-branch iff the window from
the previous occurrence's start contains `[` but not `]`. -/
def isSide (s : List Char) (p : Nat × Nat) : Bool :=
  (segWindow s p).contains '[' && !(segWindow s p).contains ']'

/-- Modelled from the spec: the per-glycan counts stated
occurrence-by-occurrence.  Each occurrence start is paired with its
predecessor (the start of the string for the first occurrence) by zipping
`0 :: starts` with `starts`; main-chain and side-branch occurrences are
counted by the window classification. -/
def specCounts (glycoletter s : List Char) : Nat × Nat :=
  let starts := finditer glycoletter s
  let pairs := (0 :: starts).zip starts
  ((pairs.filter (fun p => !isSide s p)).length, (pairs.filter (isSide s)).length)

/-- Modelled from the spec: the whole Main/Side Counter as the per-glycan
spec counts summed over the filtered set. -/
def main_v_side_spec (table : List GlycanRecord)
    (glycoletter taxonomy_filter taxonomy_value : String) : Nat × Nat :=
  let glycan_list := (taxFilter table taxonomy_filter taxonomy_value).map (·.glycan)
  (((glycan_list.map (fun g => specCounts glycoletter.data g.data)).map Prod.fst).sum,
   ((glycan_list.map (fun g => specCounts glycoletter.data g.data)).map Prod.snd).sum)

/-- Total number of non-overlapping matches of the glycoletter over the
filtered set. -/
def totalMatches (table : List GlycanRecord)
    (glycoletter taxonomy_filter taxonomy_value : String) : Nat :=
  (((taxFilter table taxonomy_filter taxonomy_value).map
    (fun r => (finditer glycoletter.data r.glycan.data).length)).sum)

/-! ## Context Characterizer -/

/-- Modelled from the spec: the external collaborator `link_find`
(in `glycan_processing_helpers`, not under `src/`) is documented to return
tokens of the form `sugarA*bond*sugarB`; a token is modelled as the triple
of its `*`-separated fields `(sugarA, bond, sugarB)`, so that the source's
`k.split('*')[0]`, `[1]`, `[2]` are the three projections. -/
abbrev BondTriple := String × String × String

/-- The error of the Context Characterizer on an unrecognized `mode`:
the source has no matching branch and fails (its label is never bound);
per the spec this is surfaced as a clearly named invalid-argument error. -/
inductive CtxError where
  | invalidArgument (mode : String)
deriving DecidableEq, Repr

/-- Lines 54-55: extract the bond triples of every filtered glycan and
flatten them into one pool. -/
def flatPool (linkFind : String → List BondTriple) (glycansDf : List GlycanRecord) :
    List BondTriple :=
  (glycansDf.map (fun r => linkFind r.glycan)).flatten

/-- The keys of `Counter(pool)` in Python dict insertion order, i.e. in
order of first appearance in the pool. -/
def keysInOrder : List String → List String
  | [] => []
  | x :: xs => x :: (keysInOrder xs).filter (fun y => !(y == x))

/-- The items of `Counter(pool)`: each first-appearance key paired with its
total multiplicity in the pool, in insertion order. -/
def counterItems (pool : List String) : List (String × Nat) :=
  (keysInOrder pool).map (fun k => (k, pool.count k))

/-- Insert into a descending-by-count list, before the first strictly
smaller count — the placement a stable descending sort gives an element
that precedes the list's elements in the original order. -/
def insertDesc (a : String × Nat) : List (String × Nat) → List (String × Nat)
  | [] => [a]
  | b :: bs => if b.2 ≤ a.2 then a :: b :: bs else b :: insertDesc a bs

/-- Stable descending-by-count sort (insertion sort). -/
def sortDesc : List (String × Nat) → List (String × Nat)
  | [] => []
  | x :: xs => insertDesc x (sortDesc xs)

/-- Embedding of `Counter(pool).most_common()` (line 65): the frequency table in
insertion order, stably sorted by descending count (CPython's `sorted`
with `reverse=True` is stable). -/
def mostCommon (pool : List String) : List (String × Nat) :=
  sortDesc (counterItems pool)

/-- Lines 65-71 after the mode branch fixed `pool` and `lab`: tally,
keep the entries with count strictly above 10, split keys from counts,
and append the taxonomic filter description to the label. -/
def finishCtx (pool : List String) (lab taxonomy_filter taxonomy_value : String) :
    String × List String × List Nat :=
  let cou := mostCommon pool
  let cou_k := (cou.filter (fun k => decide (10 < k.2))).map (·.1)
  let cou_v := (cou.filter (fun k => decide (10 < k.2))).map (·.2)
  (lab ++ " (" ++ taxonomy_filter ++ " = " ++ taxonomy_value ++ ")", cou_k, cou_v)

/-- Embedding of `characterize_context(glycoletter, mode, taxonomy_filter, taxonomy_value)`
(lines 39-71 of the source), with the reference table and the external
`link_find` collaborator passed explicitly.  An unrecognized `mode` has no
branch in the source and fails; here that failure is the explicit
invalid-argument error. -/
def characterize_context (linkFind : String → List BondTriple)
    (table : List GlycanRecord)
    (glycoletter mode taxonomy_filter taxonomy_value : String) :
    Except CtxError (String × List String × List Nat) :=
  let glycansDf := taxFilter table taxonomy_filter taxonomy_value
  let pool0 := flatPool linkFind glycansDf
  if mode = "bond" then
    .ok (finishCtx ((pool0.filter (fun k => k.2.1 == glycoletter)).map (·.1))
      ("Observed monosaccharides making bond " ++ glycoletter)
      taxonomy_filter taxonomy_value)
  else if mode = "sugar" then
    .ok (finishCtx ((pool0.filter (fun k => k.1 == glycoletter)).map (·.2.2))
      ("Observed monosaccharides paired with " ++ glycoletter)
      taxonomy_filter taxonomy_value)
  else if mode = "sugarbond" then
    .ok (finishCtx ((pool0.filter (fun k => k.1 == glycoletter)).map (·.2.1))
      ("Observed bonds made by " ++ glycoletter)
      taxonomy_filter taxonomy_value)
  else
    .error (.invalidArgument mode)

/-- The filtered, mode-selected pool of partner values the Context
Characterizer tallies (the value of `pool` after lines 56-64). -/
def ctxPool (linkFind : String → List BondTriple) (table : List GlycanRecord)
    (glycoletter mode taxonomy_filter taxonomy_value : String) : List String :=
  let pool0 := flatPool linkFind (taxFilter table taxonomy_filter taxonomy_value)
  if mode = "bond" then
    (pool0.filter (fun k => k.2.1 == glycoletter)).map (·.1)
  else if mode = "sugar" then
    (pool0.filter (fun k => k.1 == glycoletter)).map (·.2.2)
  else if mode = "sugarbond" then
    (pool0.filter (fun k => k.1 == glycoletter)).map (·.2.1)
  else []

/-! ## Spec-side reformulation of the Context Characterizer (for claim C4)

The spec presents the three modes as a table: which field of each triple is
matched against the glycoletter, which field is tallied as the partner, and
the label template. -/

/-- Modelled from the spec's mode table: the field matched against the
glycoletter — the middle (bond) field for mode `"bond"`, the first
(source sugar) field for modes `"sugar"` and `"sugarbond"`. -/
def keyField (mode : String) (t : BondTriple) : String :=
  if mode = "bond" then t.2.1 else t.1

/-- Modelled from the spec's mode table: the field tallied as partner —
first (source sugar) for `"bond"`, third (target sugar) for `"sugar"`,
middle (bond) for `"sugarbond"`. -/
def partnerField (mode : String) (t : BondTriple) : String :=
  if mode = "bond" then t.1
  else if mode = "sugar" then t.2.2
  else t.2.1

/-- Modelled from the spec's mode table: the label template of each mode. -/
def labelFor (mode glycoletter : String) : String :=
  if mode = "bond" then "Observed monosaccharides making bond " ++ glycoletter
  else if mode = "sugar" then "Observed monosaccharides paired with " ++ glycoletter
  else "Observed bonds made by " ++ glycoletter

/-- Modelled from the spec: select the triples whose key field equals the
glycoletter exactly, tally their partner fields, keep counts above the
threshold, and report with the templated label followed by the suffix
`" ({taxonomy_filter} = {taxonomy_value})"`. -/
def characterize_spec (linkFind : String → List BondTriple)
    (table : List GlycanRecord)
    (glycoletter mode taxonomy_filter taxonomy_value : String) :
    Except CtxError (String × List String × List Nat) :=
  if mode = "bond" ∨ mode = "sugar" ∨ mode = "sugarbond" then
    let pool0 := flatPool linkFind (taxFilter table taxonomy_filter taxonomy_value)
    let pool := (pool0.filter (fun t => keyField mode t == glycoletter)).map
      (fun t => partnerField mode t)
    let cou := mostCommon pool
    .ok (labelFor mode glycoletter ++ " (" ++ taxonomy_filter ++ " = " ++ taxonomy_value ++ ")",
         (cou.filter (fun k => decide (10 < k.2))).map (·.1),
         (cou.filter (fun k => decide (10 < k.2))).map (·.2))
  else
    .error (.invalidArgument mode)

/-! ## Lemmas about the Main/Side Counter loop -/

lemma mvsStep_eq (s : List Char) (m sd i0 i : Nat) :
    mvsStep s (m, sd, i0) i = if isSide s (i0, i) then (m, sd + 1, i) else (m + 1, sd, i) := rfl

lemma length_filter_not_add (p : α → Bool) (l : List α) :
    (l.filter (fun a => !p a)).length + (l.filter p).length = l.length := by
  induction l with
  | nil => simp
  | cons x xs ih =>
    cases h : p x <;> simp [List.filter_cons, h] <;> omega

/-- The inner loop of `main_v_side_branch` from an arbitrary state:
the two counters each grow by the number of window pairs classified
their way, where each occurrence start is paired with its predecessor
(the initial cursor `i0` for the first one). -/
lemma foldl_mvsStep_spec (s : List Char) (starts : List Nat) : ∀ (m sd i0 : Nat),
    ∃ j, starts.foldl (mvsStep s) (m, sd, i0)
      = (m + (((i0 :: starts).zip starts).filter (fun p => !isSide s p)).length,
         sd + (((i0 :: starts).zip starts).filter (isSide s)).length, j) := by
  induction starts with
  | nil => intro m sd i0; exact ⟨i0, by simp⟩
  | cons i rest ih =>
    intro m sd i0
    rw [List.foldl_cons, mvsStep_eq]
    cases h : isSide s (i0, i) with
    | false =>
      obtain ⟨j, hj⟩ := ih (m + 1) sd i
      refine ⟨j, ?_⟩
      rw [if_neg (by simp [h]), hj]
      simp only [List.zip_cons_cons, List.filter_cons, h]
      simp
      omega
    | true =>
      obtain ⟨j, hj⟩ := ih m (sd + 1) i
      refine ⟨j, ?_⟩
      rw [if_pos (by simp [h]), hj]
      simp only [List.zip_cons_cons, List.filter_cons, h]
      simp
      omega

/-- The per-glycan source loop computes exactly the spec's
occurrence-paired window classification. -/
lemma countOne_eq_specCounts (glycoletter s : List Char) :
    countOne glycoletter s = specCounts glycoletter s := by
  simp only [countOne, specCounts]
  obtain ⟨j, hj⟩ := foldl_mvsStep_spec s (finditer glycoletter s) 0 0 0
  rw [hj]
  simp

/-- Accumulating per-glycan pair contributions over a list equals the pair
of sums of the per-glycan contributions. -/
lemma foldl_pair_sum (f : String → Nat × Nat) (l : List String) : ∀ (a b : Nat),
    l.foldl (fun acc g => (acc.1 + (f g).1, acc.2 + (f g).2)) (a, b)
      = (a + ((l.map f).map Prod.fst).sum, b + ((l.map f).map Prod.snd).sum) := by
  induction l with
  | nil => intro a b; simp
  | cons x xs ih =>
    intro a b
    rw [List.foldl_cons, ih]
    simp
    constructor <;> omega

/-- C1: In the Main/Side Counter, for every glycan string in the filtered
set and every non-overlapping occurrence found in string order, the
occurrence is counted as side-branch iff the substring from the previous
occurrence's start (or the start of the string for the first occurrence)
up to the current occurrence's start contains `[` but not `]`, and as
main-chain otherwise; the cursor advances to the occurrence's start, not
its end, so each occurrence's own matched text is re-included in the next
window.  The source loop equals the spec's occurrence-paired description. -/
theorem C1_main_v_side_segmentation (table : List GlycanRecord)
    (glycoletter taxonomy_filter taxonomy_value : String) :
    main_v_side_branch table glycoletter taxonomy_filter taxonomy_value
      = main_v_side_spec table glycoletter taxonomy_filter taxonomy_value := by
  simp only [main_v_side_branch, main_v_side_spec]
  rw [foldl_pair_sum (fun g => countOne glycoletter.data g.data)]
  have hfg : (fun g : String => countOne glycoletter.data g.data)
      = (fun g : String => specCounts glycoletter.data g.data) :=
    funext fun g => countOne_eq_specCounts _ _
  rw [hfg]
  simp

/-- Sum of first components plus sum of second components is the sum of
the componentwise totals. -/
lemma sum_fst_add_sum_snd (l : List (Nat × Nat)) :
    (l.map Prod.fst).sum + (l.map Prod.snd).sum = (l.map (fun p => p.1 + p.2)).sum := by
  induction l with
  | nil => simp
  | cons x xs ih => simp; omega

/-- Each glycan contributes exactly its number of occurrence starts to
`main + side`. -/
lemma countOne_add (glycoletter s : List Char) :
    (countOne glycoletter s).1 + (countOne glycoletter s).2
      = (finditer glycoletter s).length := by
  simp only [countOne]
  obtain ⟨j, hj⟩ := foldl_mvsStep_spec s (finditer glycoletter s) 0 0 0
  rw [hj]
  simp only [Nat.zero_add]
  rw [length_filter_not_add (isSide s) (((0 :: finditer glycoletter s).zip (finditer glycoletter s)))]
  rw [List.length_zip]
  simp [Nat.min_def]

/-- C2: For every glycoletter and taxonomic filter, the two counters of
the Main/Side Counter sum to the total number of non-overlapping matches
of the glycoletter across all glycan strings of the filtered set; in
particular zero total occurrences yields `(0, 0)`. -/
theorem C2_main_plus_side_is_total (table : List GlycanRecord)
    (glycoletter taxonomy_filter taxonomy_value : String) :
    (main_v_side_branch table glycoletter taxonomy_filter taxonomy_value).1
        + (main_v_side_branch table glycoletter taxonomy_filter taxonomy_value).2
      = totalMatches table glycoletter taxonomy_filter taxonomy_value
    ∧ (totalMatches table glycoletter taxonomy_filter taxonomy_value = 0 →
        main_v_side_branch table glycoletter taxonomy_filter taxonomy_value = (0, 0)) := by
  have hmain :
      (main_v_side_branch table glycoletter taxonomy_filter taxonomy_value).1
          + (main_v_side_branch table glycoletter taxonomy_filter taxonomy_value).2
        = totalMatches table glycoletter taxonomy_filter taxonomy_value := by
    simp only [main_v_side_branch, totalMatches]
    rw [foldl_pair_sum (fun g => countOne glycoletter.data g.data)]
    simp only [Nat.zero_add]
    rw [sum_fst_add_sum_snd]
    rw [List.map_map, List.map_map]
    congr 1
    apply List.map_congr_left
    intro r _
    exact countOne_add glycoletter.data r.glycan.data
  refine ⟨hmain, fun h0 => ?_⟩
  have h1 := hmain
  rw [h0] at h1
  have hfst : (main_v_side_branch table glycoletter taxonomy_filter taxonomy_value).1 = 0 := by
    omega
  have hsnd : (main_v_side_branch table glycoletter taxonomy_filter taxonomy_value).2 = 0 := by
    omega
  exact Prod.ext hfst hsnd

theorem C2_main_plus_side_is_total_witness :
    main_v_side_branch
      [⟨"Gal(b1-4)[Fuc(a1-3)]GlcNAc", .pstr "Animalia", .pstr "Homo sapiens"⟩]
      "Xyz" "Kingdom" "All" = (0, 0) :=
  (C2_main_plus_side_is_total
    [⟨"Gal(b1-4)[Fuc(a1-3)]GlcNAc", .pstr "Animalia", .pstr "Homo sapiens"⟩]
    "Xyz" "Kingdom" "All").2 (by decide)

/-! ## The Taxonomic Filter (claims C3 and C9) -/

/-- C3: The Taxonomic Filter returns the whole table in order when
`taxonomy_value = "All"`; otherwise it keeps, in original table order
(a sublist of the table), exactly the records whose `kingdom` field (when
the filter is `"Kingdom"`) or `species` field (for any other filter value)
contains `taxonomy_value` as a case-sensitive substring of the field's
string form; an unmatched filter yields an empty set, never an error
(the filter is a total function). -/
theorem C3_tax_filter_characterization (table : List GlycanRecord)
    (taxonomy_filter taxonomy_value : String) :
    (taxonomy_value = "All" → taxFilter table taxonomy_filter taxonomy_value = table)
    ∧ (taxonomy_value ≠ "All" →
        (taxFilter table taxonomy_filter taxonomy_value).Sublist table
        ∧ ∀ r, r ∈ taxFilter table taxonomy_filter taxonomy_value ↔
            (r ∈ table
             ∧ (taxonomy_filter = "Kingdom" → taxonomy_value.data <:+: (pyStr r.kingdom).data)
             ∧ (taxonomy_filter ≠ "Kingdom" → taxonomy_value.data <:+: (pyStr r.species).data))) := by
  constructor
  · intro h
    simp [taxFilter, h]
  · intro h
    constructor
    · simp only [taxFilter, if_neg h]
      exact List.filter_sublist table
    · intro r
      simp only [taxFilter, if_neg h, List.mem_filter]
      by_cases htf : taxonomy_filter = "Kingdom" <;>
        simp [matchesFilter, htf]

/-- Witness for C3 at concrete inputs. -/
def sampleTable : List GlycanRecord :=
  [⟨"Gal(b1-4)[Fuc(a1-3)]GlcNAc", .pstr "Animalia", .pstr "Homo sapiens"⟩,
   ⟨"Man(a1-6)[Man(a1-3)]Man", .pstr "Bacteria", .nonStr "nan"⟩]

/-- A concrete stand-in for the external `link_find` collaborator. -/
def sampleLinkFind : String → List BondTriple := fun g =>
  if g = "Gal(b1-4)[Fuc(a1-3)]GlcNAc" then
    [("Gal", "b1-4", "GlcNAc"), ("Fuc", "a1-3", "GlcNAc")]
  else
    [("Man", "a1-6", "Man"), ("Man", "a1-3", "Man")]

theorem C3_tax_filter_characterization_witness :
    taxFilter sampleTable "Kingdom" "All" = sampleTable
    ∧ (taxFilter sampleTable "Kingdom" "Anim").Sublist sampleTable :=
  ⟨(C3_tax_filter_characterization sampleTable "Kingdom" "All").1 rfl,
   ((C3_tax_filter_characterization sampleTable "Kingdom" "Anim").2 (by decide)).1⟩

/-- The label of a Context Characterizer result, when it has one. -/
def ctxLabel : Except CtxError (String × List String × List Nat) → Option String
  | .ok p => some p.1
  | .error _ => none

/-- C9 counterexample: for the filter `Kingdom = "a"`, whose substring
predicate matches every record of the sample table, the Context
Characterizer's output differs from the `"All"` output — the returned
label records the `taxonomy_value` that was passed, so the two labels
disagree even though the filtered sets coincide. -/
theorem C9_counterexample :
    ("a" : String) ≠ "All"
    ∧ (∀ r ∈ sampleTable, matchesFilter "Kingdom" "a" r = true)
    ∧ characterize_context sampleLinkFind sampleTable "Man" "sugar" "Kingdom" "a"
      ≠ characterize_context sampleLinkFind sampleTable "Man" "sugar" "Kingdom" "All" := by
  refine ⟨by decide, by decide, fun h => ?_⟩
  have h2 := congrArg ctxLabel h
  revert h2
  decide

/-- C9 (amended): With a taxonomic filter whose substring predicate
matches every record of the table, the Main/Side Counter's output equals
the `taxonomy_value = "All"` output, and the Context Characterizer's
output equals the `"All"` output except for the label, whose appended
`" ({taxonomy_filter} = {taxonomy_value})"` suffix records the value
actually passed: the partner and count lists (and the error behaviour on
an unrecognized mode) coincide. -/
theorem C9_all_is_identity_filter (linkFind : String → List BondTriple)
    (table : List GlycanRecord) (glycoletter mode taxonomy_filter taxonomy_value : String)
    (hv : taxonomy_value ≠ "All")
    (hall : ∀ r ∈ table, matchesFilter taxonomy_filter taxonomy_value r = true) :
    main_v_side_branch table glycoletter taxonomy_filter taxonomy_value
      = main_v_side_branch table glycoletter taxonomy_filter "All"
    ∧ (characterize_context linkFind table glycoletter mode taxonomy_filter taxonomy_value).map
        (fun p => p.2)
      = (characterize_context linkFind table glycoletter mode taxonomy_filter "All").map
        (fun p => p.2) := by
  have hfilt : taxFilter table taxonomy_filter taxonomy_value = table := by
    simp only [taxFilter, if_neg hv]
    exact List.filter_eq_self.mpr hall
  have hall' : taxFilter table taxonomy_filter "All" = table := by
    simp [taxFilter]
  constructor
  · simp only [main_v_side_branch, hfilt, hall']
  · simp only [characterize_context, hfilt, hall']
    split_ifs <;> simp [Except.map, finishCtx]

theorem C9_all_is_identity_filter_witness :
    main_v_side_branch sampleTable "Man" "Kingdom" "a"
      = main_v_side_branch sampleTable "Man" "Kingdom" "All"
    ∧ (characterize_context sampleLinkFind sampleTable "Man" "sugar" "Kingdom" "a").map
        (fun p => p.2)
      = (characterize_context sampleLinkFind sampleTable "Man" "sugar" "Kingdom" "All").map
        (fun p => p.2) :=
  C9_all_is_identity_filter sampleLinkFind sampleTable "Man" "sugar" "Kingdom" "a"
    (by decide) (by decide)

/-! ## Mode dispatch and invalid modes (claims C4 and C5) -/

/-- C4: For every recognized mode the Context Characterizer selects from
the flattened pool exactly the triples whose key field equals the
glycoletter by exact string equality, and tallies the partner field, with
key field, partner field and label template as given by the spec's mode
table, the label ending in `" ({taxonomy_filter} = {taxonomy_value})"`:
the source function equals the spec-side description. -/
theorem C4_mode_field_selection (linkFind : String → List BondTriple)
    (table : List GlycanRecord)
    (glycoletter mode taxonomy_filter taxonomy_value : String)
    (hmode : mode = "bond" ∨ mode = "sugar" ∨ mode = "sugarbond") :
    characterize_context linkFind table glycoletter mode taxonomy_filter taxonomy_value
      = characterize_spec linkFind table glycoletter mode taxonomy_filter taxonomy_value := by
  rcases hmode with h | h | h <;> subst h <;>
    simp [characterize_context, characterize_spec, keyField, partnerField, labelFor, finishCtx]

theorem C4_mode_field_selection_witness :
    characterize_context sampleLinkFind sampleTable "b1-4" "bond" "Kingdom" "All"
      = characterize_spec sampleLinkFind sampleTable "b1-4" "bond" "Kingdom" "All" :=
  C4_mode_field_selection sampleLinkFind sampleTable "b1-4" "bond" "Kingdom" "All"
    (Or.inl rfl)

/-- C5: A call with a mode outside {"bond", "sugar", "sugarbond"} fails
with the named invalid-argument error rather than returning a result. -/
theorem C5_unrecognized_mode_fails (linkFind : String → List BondTriple)
    (table : List GlycanRecord)
    (glycoletter mode taxonomy_filter taxonomy_value : String)
    (h : mode ∉ (["bond", "sugar", "sugarbond"] : List String)) :
    characterize_context linkFind table glycoletter mode taxonomy_filter taxonomy_value
      = .error (.invalidArgument mode) := by
  simp only [List.mem_cons, List.not_mem_nil, or_false, not_or] at h
  obtain ⟨h1, h2, h3⟩ := h
  simp [characterize_context, h1, h2, h3]

theorem C5_unrecognized_mode_fails_witness :
    characterize_context sampleLinkFind sampleTable "Gal" "frequency" "Kingdom" "All"
      = .error (.invalidArgument "frequency") :=
  C5_unrecognized_mode_fails sampleLinkFind sampleTable "Gal" "frequency" "Kingdom" "All"
    (by decide)

/-! ## Lemmas about `Counter(...).most_common()` -/

lemma mem_keysInOrder (y : String) (l : List String) : y ∈ keysInOrder l ↔ y ∈ l := by
  induction l with
  | nil => simp [keysInOrder]
  | cons x xs ih =>
    by_cases hyx : y = x
    · simp [keysInOrder, hyx]
    · simp [keysInOrder, List.mem_filter, hyx, ih]

lemma nodup_keysInOrder (l : List String) : (keysInOrder l).Nodup := by
  induction l with
  | nil => simp [keysInOrder]
  | cons x xs ih =>
    simp only [keysInOrder]
    rw [List.nodup_cons]
    constructor
    · intro hmem
      have := (List.mem_filter.mp hmem).2
      simp at this
    · exact ih.filter _

lemma counterItems_count {pool : List String} {p : String × Nat}
    (hp : p ∈ counterItems pool) : p.2 = pool.count p.1 := by
  simp only [counterItems, List.mem_map] at hp
  obtain ⟨k, _, hk⟩ := hp
  rw [← hk]

lemma mem_counterItems_of_mem {pool : List String} {x : String} (hx : x ∈ pool) :
    (x, pool.count x) ∈ counterItems pool := by
  simp only [counterItems, List.mem_map]
  exact ⟨x, (mem_keysInOrder x pool).mpr hx, rfl⟩

lemma counterItems_fst (pool : List String) :
    (counterItems pool).map Prod.fst = keysInOrder pool := by
  simp only [counterItems, List.map_map]
  have hfun : (Prod.fst ∘ fun k : String => (k, pool.count k)) = id := funext fun k => rfl
  rw [hfun, List.map_id]

lemma insertDesc_perm (a : String × Nat) (l : List (String × Nat)) :
    (insertDesc a l).Perm (a :: l) := by
  induction l with
  | nil => simp [insertDesc]
  | cons b bs ih =>
    simp only [insertDesc]
    by_cases h : b.2 ≤ a.2
    · rw [if_pos h]
    · rw [if_neg h]
      exact (ih.cons b).trans (List.Perm.swap a b bs)

lemma sortDesc_perm (l : List (String × Nat)) : (sortDesc l).Perm l := by
  induction l with
  | nil => simp [sortDesc]
  | cons x xs ih =>
    simp only [sortDesc]
    exact (insertDesc_perm x (sortDesc xs)).trans (ih.cons x)

lemma insertDesc_sorted {a : String × Nat} {l : List (String × Nat)}
    (h : l.Pairwise (fun p q => q.2 ≤ p.2)) :
    (insertDesc a l).Pairwise (fun p q => q.2 ≤ p.2) := by
  induction l with
  | nil => simp [insertDesc]
  | cons b bs ih =>
    rw [List.pairwise_cons] at h
    obtain ⟨hb, hbs⟩ := h
    simp only [insertDesc]
    by_cases hba : b.2 ≤ a.2
    · rw [if_pos hba, List.pairwise_cons]
      refine ⟨?_, List.pairwise_cons.mpr ⟨hb, hbs⟩⟩
      intro q hq
      rcases List.mem_cons.mp hq with rfl | hq'
      · exact hba
      · exact le_trans (hb q hq') hba
    · rw [if_neg hba, List.pairwise_cons]
      refine ⟨?_, ih hbs⟩
      intro q hq
      have hq2 : q ∈ a :: bs := (insertDesc_perm a bs).mem_iff.mp hq
      rcases List.mem_cons.mp hq2 with rfl | hq'
      · exact le_of_lt (Nat.lt_of_not_le hba)
      · exact hb q hq'

lemma sortDesc_sorted (l : List (String × Nat)) :
    (sortDesc l).Pairwise (fun p q => q.2 ≤ p.2) := by
  induction l with
  | nil => simp [sortDesc]
  | cons x xs ih =>
    simp only [sortDesc]
    exact insertDesc_sorted ih

lemma filter_insertDesc_of_eq {a : String × Nat} {c : Nat} (h : a.2 = c)
    (l : List (String × Nat)) :
    (insertDesc a l).filter (fun p => p.2 == c) = a :: l.filter (fun p => p.2 == c) := by
  induction l with
  | nil => simp [insertDesc, List.filter_cons, h]
  | cons b bs ih =>
    simp only [insertDesc]
    by_cases hba : b.2 ≤ a.2
    · rw [if_pos hba]
      simp [List.filter_cons, h]
    · rw [if_neg hba]
      have hbc : (b.2 == c) = false := by
        have : c < b.2 := h ▸ Nat.lt_of_not_le hba
        simp [Nat.ne_of_gt this]
      rw [List.filter_cons, List.filter_cons]
      simp only [hbc, if_neg Bool.false_ne_true, ih]

lemma filter_insertDesc_of_ne {a : String × Nat} {c : Nat} (h : a.2 ≠ c)
    (l : List (String × Nat)) :
    (insertDesc a l).filter (fun p => p.2 == c) = l.filter (fun p => p.2 == c) := by
  induction l with
  | nil => simp [insertDesc, List.filter_cons, h]
  | cons b bs ih =>
    simp only [insertDesc]
    by_cases hba : b.2 ≤ a.2
    · rw [if_pos hba]
      simp [List.filter_cons, h]
    · rw [if_neg hba]
      rw [List.filter_cons, List.filter_cons, ih]

/-- Stability of the descending sort: the elements of any one count value
keep their relative order (filtering by that count commutes with the
sort). -/
lemma sortDesc_stable (l : List (String × Nat)) (c : Nat) :
    (sortDesc l).filter (fun p => p.2 == c) = l.filter (fun p => p.2 == c) := by
  induction l with
  | nil => rfl
  | cons x xs ih =>
    simp only [sortDesc]
    by_cases hx : x.2 = c
    · rw [filter_insertDesc_of_eq hx, ih, List.filter_cons]
      simp [hx]
    · rw [filter_insertDesc_of_ne hx, ih, List.filter_cons]
      simp [hx]

lemma mostCommon_count {pool : List String} {p : String × Nat}
    (hp : p ∈ mostCommon pool) : p.2 = pool.count p.1 :=
  counterItems_count ((sortDesc_perm (counterItems pool)).subset hp)

/-! ## Inverting a successful Context Characterizer call -/

lemma characterize_context_eq (linkFind : String → List BondTriple)
    (table : List GlycanRecord) (glycoletter mode taxonomy_filter taxonomy_value : String)
    (hmode : mode = "bond" ∨ mode = "sugar" ∨ mode = "sugarbond") :
    characterize_context linkFind table glycoletter mode taxonomy_filter taxonomy_value
      = .ok (labelFor mode glycoletter ++ " (" ++ taxonomy_filter ++ " = " ++ taxonomy_value ++ ")",
          ((mostCommon (ctxPool linkFind table glycoletter mode taxonomy_filter taxonomy_value)).filter
            (fun k => decide (10 < k.2))).map (·.1),
          ((mostCommon (ctxPool linkFind table glycoletter mode taxonomy_filter taxonomy_value)).filter
            (fun k => decide (10 < k.2))).map (·.2)) := by
  rcases hmode with h | h | h <;> subst h <;>
    simp [characterize_context, ctxPool, labelFor, finishCtx]

lemma characterize_ok_inv {linkFind : String → List BondTriple}
    {table : List GlycanRecord} {glycoletter mode taxonomy_filter taxonomy_value : String}
    {lab : String} {ks : List String} {vs : List Nat}
    (h : characterize_context linkFind table glycoletter mode taxonomy_filter taxonomy_value
          = .ok (lab, ks, vs)) :
    (mode = "bond" ∨ mode = "sugar" ∨ mode = "sugarbond")
    ∧ ks = ((mostCommon (ctxPool linkFind table glycoletter mode taxonomy_filter
              taxonomy_value)).filter (fun k => decide (10 < k.2))).map (·.1)
    ∧ vs = ((mostCommon (ctxPool linkFind table glycoletter mode taxonomy_filter
              taxonomy_value)).filter (fun k => decide (10 < k.2))).map (·.2) := by
  have hmode : mode = "bond" ∨ mode = "sugar" ∨ mode = "sugarbond" := by
    by_contra hc
    push_neg at hc
    obtain ⟨h1, h2, h3⟩ := hc
    simp [characterize_context, h1, h2, h3] at h
  have heq := characterize_context_eq linkFind table glycoletter mode
    taxonomy_filter taxonomy_value hmode
  rw [heq] at h
  simp only [Except.ok.injEq, Prod.mk.injEq] at h
  exact ⟨hmode, h.2.1.symm, h.2.2.symm⟩

/-- C6: Every count returned by the Context Characterizer is strictly
greater than 10, and every partner value of the filtered, mode-selected
pool that is omitted from the result has total tally at most 10. -/
theorem C6_count_threshold (linkFind : String → List BondTriple)
    (table : List GlycanRecord) (glycoletter mode taxonomy_filter taxonomy_value : String)
    (lab : String) (ks : List String) (vs : List Nat)
    (h : characterize_context linkFind table glycoletter mode taxonomy_filter taxonomy_value
          = .ok (lab, ks, vs)) :
    (∀ v ∈ vs, 10 < v)
    ∧ (∀ x ∈ ctxPool linkFind table glycoletter mode taxonomy_filter taxonomy_value,
        x ∉ ks →
        (ctxPool linkFind table glycoletter mode taxonomy_filter taxonomy_value).count x ≤ 10) := by
  obtain ⟨hmode, hk, hv⟩ := characterize_ok_inv h
  constructor
  · intro v hvm
    rw [hv] at hvm
    simp only [List.mem_map] at hvm
    obtain ⟨p, hp, rfl⟩ := hvm
    have := (List.mem_filter.mp hp).2
    simpa using this
  · intro x hx hnotk
    by_contra hgt
    push_neg at hgt
    apply hnotk
    rw [hk]
    have h1 : (x, (ctxPool linkFind table glycoletter mode taxonomy_filter
        taxonomy_value).count x)
        ∈ counterItems (ctxPool linkFind table glycoletter mode taxonomy_filter taxonomy_value) :=
      mem_counterItems_of_mem hx
    have h2 := ((sortDesc_perm _).mem_iff).mpr h1
    have h3 : (x, (ctxPool linkFind table glycoletter mode taxonomy_filter
        taxonomy_value).count x)
        ∈ (mostCommon (ctxPool linkFind table glycoletter mode taxonomy_filter
            taxonomy_value)).filter (fun k => decide (10 < k.2)) := by
      rw [List.mem_filter]
      exact ⟨h2, by simpa using hgt⟩
    exact List.mem_map.mpr ⟨_, h3, rfl⟩

def bigLinkFind : String → List BondTriple := fun _ =>
  List.replicate 12 ("Gal", "b1-4", "GlcNAc")

theorem C6_count_threshold_witness :
    (∀ v ∈ ([24] : List Nat), 10 < v)
    ∧ (∀ x ∈ ctxPool bigLinkFind sampleTable "b1-4" "bond" "Kingdom" "All",
        x ∉ (["Gal"] : List String) →
        (ctxPool bigLinkFind sampleTable "b1-4" "bond" "Kingdom" "All").count x ≤ 10) :=
  C6_count_threshold bigLinkFind sampleTable "b1-4" "bond" "Kingdom" "All"
    "Observed monosaccharides making bond b1-4 (Kingdom = All)" ["Gal"] [24] rfl

/-- C7: The returned count sequence is sorted by non-increasing count
(pairwise `≥` along the list, the partner list being aligned with it),
and ties are broken by the tallying order of first appearance in the
pool: restricted to any one count value above the threshold, the returned
partners appear exactly in the pool's first-appearance key order (the
sort over the frequency table is stable). -/
theorem C7_sorted_descending_stable (linkFind : String → List BondTriple)
    (table : List GlycanRecord) (glycoletter mode taxonomy_filter taxonomy_value : String)
    (lab : String) (ks : List String) (vs : List Nat)
    (h : characterize_context linkFind table glycoletter mode taxonomy_filter taxonomy_value
          = .ok (lab, ks, vs)) :
    vs.Pairwise (fun a b => b ≤ a)
    ∧ ∀ c : Nat, 10 < c →
        ks.filter (fun k =>
            (ctxPool linkFind table glycoletter mode taxonomy_filter taxonomy_value).count k == c)
          = (keysInOrder (ctxPool linkFind table glycoletter mode taxonomy_filter
              taxonomy_value)).filter (fun k =>
            (ctxPool linkFind table glycoletter mode taxonomy_filter taxonomy_value).count k == c) := by
  obtain ⟨hmode, hk, hv⟩ := characterize_ok_inv h
  constructor
  · rw [hv]
    have hs := sortDesc_sorted (counterItems (ctxPool linkFind table glycoletter mode
      taxonomy_filter taxonomy_value))
    have hf := List.Pairwise.filter (fun k => decide (10 < k.2)) hs
    rw [List.pairwise_map]
    exact hf
  · intro c hc
    rw [hk, List.filter_map]
    have hcongr1 : ∀ p ∈ (mostCommon (ctxPool linkFind table glycoletter mode taxonomy_filter
        taxonomy_value)).filter (fun k => decide (10 < k.2)),
        ((fun k => (ctxPool linkFind table glycoletter mode taxonomy_filter
            taxonomy_value).count k == c) ∘ (fun p : String × Nat => p.1)) p
          = (p.2 == c) := by
      intro p hp
      have hpc := mostCommon_count ((List.mem_filter.mp hp).1)
      simp [Function.comp, hpc]
    rw [List.filter_congr hcongr1, List.filter_filter]
    have hcongr2 : ∀ a ∈ mostCommon (ctxPool linkFind table glycoletter mode taxonomy_filter
        taxonomy_value), ((a.2 == c) && decide (10 < a.2)) = (a.2 == c) := by
      intro a _
      by_cases h2 : a.2 = c
      · simp [h2, hc]
      · simp [h2]
    rw [List.filter_congr hcongr2]
    simp only [mostCommon]
    rw [sortDesc_stable]
    simp only [counterItems, List.filter_map, List.map_map]
    have hfun2 : ((fun p : String × Nat => p.2 == c) ∘ fun k : String =>
        (k, (ctxPool linkFind table glycoletter mode taxonomy_filter taxonomy_value).count k))
        = (fun k => (ctxPool linkFind table glycoletter mode taxonomy_filter
            taxonomy_value).count k == c) := funext fun k => rfl
    have hcomp : ((fun x : String × Nat => x.1) ∘ fun k : String =>
        (k, (ctxPool linkFind table glycoletter mode taxonomy_filter taxonomy_value).count k))
        = id := funext fun k => rfl
    rw [hfun2, hcomp, List.map_id]

theorem C7_sorted_descending_stable_witness :
    ([24] : List Nat).Pairwise (fun a b => b ≤ a)
    ∧ ∀ c : Nat, 10 < c →
        (["Gal"] : List String).filter (fun k =>
            (ctxPool bigLinkFind sampleTable "b1-4" "bond" "Kingdom" "All").count k == c)
          = (keysInOrder (ctxPool bigLinkFind sampleTable "b1-4" "bond" "Kingdom"
              "All")).filter (fun k =>
            (ctxPool bigLinkFind sampleTable "b1-4" "bond" "Kingdom" "All").count k == c) :=
  C7_sorted_descending_stable bigLinkFind sampleTable "b1-4" "bond" "Kingdom" "All"
    "Observed monosaccharides making bond b1-4 (Kingdom = All)" ["Gal"] [24] rfl

/-- C10: On a successful call, the partner list and the count list have
equal length, the partner symbols are pairwise distinct, and the count at
each position is the exact total tally of the partner at the same position
over the filtered, mode-selected pool. -/
theorem C10_result_alignment (linkFind : String → List BondTriple)
    (table : List GlycanRecord) (glycoletter mode taxonomy_filter taxonomy_value : String)
    (lab : String) (ks : List String) (vs : List Nat)
    (h : characterize_context linkFind table glycoletter mode taxonomy_filter taxonomy_value
          = .ok (lab, ks, vs)) :
    ks.length = vs.length ∧ ks.Nodup
    ∧ ∀ i (hik : i < ks.length) (hiv : i < vs.length),
        vs.get ⟨i, hiv⟩
          = (ctxPool linkFind table glycoletter mode taxonomy_filter taxonomy_value).count
              (ks.get ⟨i, hik⟩) := by
  obtain ⟨hmode, hk, hv⟩ := characterize_ok_inv h
  subst hk
  subst hv
  refine ⟨by simp, ?_, ?_⟩
  · have hsub0 : ((mostCommon (ctxPool linkFind table glycoletter mode taxonomy_filter
        taxonomy_value)).filter (fun k => decide (10 < k.2))).Sublist
        (mostCommon (ctxPool linkFind table glycoletter mode taxonomy_filter taxonomy_value)) :=
      List.filter_sublist _
    have hsub := hsub0.map (fun p : String × Nat => p.1)
    have hperm := (sortDesc_perm (counterItems (ctxPool linkFind table glycoletter mode
      taxonomy_filter taxonomy_value))).map (fun p : String × Nat => p.1)
    have hci : ((counterItems (ctxPool linkFind table glycoletter mode taxonomy_filter
        taxonomy_value)).map (fun p : String × Nat => p.1)).Nodup := by
      have := counterItems_fst (ctxPool linkFind table glycoletter mode taxonomy_filter
        taxonomy_value)
      have hfeq : (fun p : String × Nat => p.1) = Prod.fst := funext fun p => rfl
      rw [hfeq, this]
      exact nodup_keysInOrder _
    exact ((hperm.nodup_iff).mpr hci).sublist hsub
  · intro i hik hiv
    simp only [List.get_eq_getElem, List.getElem_map]
    have hik' : i < ((mostCommon (ctxPool linkFind table glycoletter mode taxonomy_filter
        taxonomy_value)).filter (fun k => decide (10 < k.2))).length := by
      simpa using hik
    have hmem : ((mostCommon (ctxPool linkFind table glycoletter mode taxonomy_filter
        taxonomy_value)).filter (fun k => decide (10 < k.2))).get ⟨i, hik'⟩
        ∈ (mostCommon (ctxPool linkFind table glycoletter mode taxonomy_filter
            taxonomy_value)).filter (fun k => decide (10 < k.2)) :=
      List.get_mem _ _ hik'
    rw [List.get_eq_getElem] at hmem
    exact mostCommon_count ((List.mem_filter.mp hmem).1)

theorem C10_result_alignment_witness :
    (["Gal"] : List String).length = ([24] : List Nat).length
    ∧ (["Gal"] : List String).Nodup
    ∧ ∀ i (hik : i < (["Gal"] : List String).length) (hiv : i < ([24] : List Nat).length),
        ([24] : List Nat).get ⟨i, hiv⟩
          = (ctxPool bigLinkFind sampleTable "b1-4" "bond" "Kingdom" "All").count
              ((["Gal"] : List String).get ⟨i, hik⟩) :=
  C10_result_alignment bigLinkFind sampleTable "b1-4" "bond" "Kingdom" "All"
    "Observed monosaccharides making bond b1-4 (Kingdom = All)" ["Gal"] [24] rfl

/-! ## Graceful degradation (claim C8) -/

lemma matchAt_found {pat s : List Char} {i : Nat} (h : matchAt pat s i = true) :
    pat <:+: s := by
  simp only [matchAt, Bool.and_eq_true, decide_eq_true_eq, beq_iff_eq] at h
  obtain ⟨hlen, htake⟩ := h
  refine ⟨s.take i, (s.drop i).drop pat.length, ?_⟩
  have hdecomp : (s.drop i).take pat.length ++ (s.drop i).drop pat.length = s.drop i :=
    List.take_append_drop _ _
  rw [htake] at hdecomp
  rw [List.append_assoc, hdecomp, List.take_append_drop]

lemma finditerAux_eq_nil {pat s : List Char} (h : ¬ pat <:+: s) :
    ∀ fuel pos, finditerAux pat s pos fuel = [] := by
  intro fuel
  induction fuel with
  | zero => intro pos; rfl
  | succ n ih =>
    intro pos
    cases hm : matchAt pat s pos with
    | true => exact absurd (matchAt_found hm) h
    | false =>
      by_cases hp : pos < s.length <;> simp [finditerAux, hm, hp, ih]

lemma finditer_eq_nil {pat s : List Char} (h : ¬ pat <:+: s) : finditer pat s = [] :=
  finditerAux_eq_nil h _ _

lemma main_v_side_eq_zero {table : List GlycanRecord}
    {glycoletter taxonomy_filter taxonomy_value : String}
    (h : ∀ r ∈ taxFilter table taxonomy_filter taxonomy_value,
      finditer glycoletter.data r.glycan.data = []) :
    main_v_side_branch table glycoletter taxonomy_filter taxonomy_value = (0, 0) := by
  have hz : ∀ r ∈ taxFilter table taxonomy_filter taxonomy_value,
      countOne glycoletter.data r.glycan.data = (0, 0) := by
    intro r hr
    have hf := h r hr
    simp [countOne, hf]
  simp only [main_v_side_branch]
  rw [foldl_pair_sum]
  have hsum1 : ((((taxFilter table taxonomy_filter taxonomy_value).map (·.glycan)).map
      (fun gl => countOne glycoletter.data gl.data)).map Prod.fst).sum = 0 := by
    apply List.sum_eq_zero
    intro x hx
    simp only [List.map_map, List.mem_map] at hx
    obtain ⟨r, hr, hvx⟩ := hx
    rw [← hvx]
    have := hz r hr
    simp [Function.comp, this]
  have hsum2 : ((((taxFilter table taxonomy_filter taxonomy_value).map (·.glycan)).map
      (fun gl => countOne glycoletter.data gl.data)).map Prod.snd).sum = 0 := by
    apply List.sum_eq_zero
    intro x hx
    simp only [List.map_map, List.mem_map] at hx
    obtain ⟨r, hr, hvx⟩ := hx
    rw [← hvx]
    have := hz r hr
    simp [Function.comp, this]
  rw [hsum1, hsum2]

lemma ctxPool_eq_nil {linkFind : String → List BondTriple} {table : List GlycanRecord}
    {glycoletter mode taxonomy_filter taxonomy_value : String}
    (hext : ∀ r ∈ taxFilter table taxonomy_filter taxonomy_value, ∀ t ∈ linkFind r.glycan,
      t.1.data <:+: r.glycan.data ∧ t.2.1.data <:+: r.glycan.data
        ∧ t.2.2.data <:+: r.glycan.data)
    (habs : ∀ r ∈ taxFilter table taxonomy_filter taxonomy_value,
      ¬ (glycoletter.data <:+: r.glycan.data)) :
    ctxPool linkFind table glycoletter mode taxonomy_filter taxonomy_value = [] := by
  have hkey : ∀ t ∈ flatPool linkFind (taxFilter table taxonomy_filter taxonomy_value),
      t.1 ≠ glycoletter ∧ t.2.1 ≠ glycoletter := by
    intro t ht
    simp only [flatPool, List.mem_flatten, List.mem_map] at ht
    obtain ⟨l, ⟨r, hr, rfl⟩, htl⟩ := ht
    obtain ⟨h1, h2, _⟩ := hext r hr t htl
    constructor
    · intro he
      exact habs r hr (he ▸ h1)
    · intro he
      exact habs r hr (he ▸ h2)
  simp only [ctxPool]
  split_ifs with h1 h2 h3
  · have hnil : (flatPool linkFind (taxFilter table taxonomy_filter taxonomy_value)).filter
        (fun k => k.2.1 == glycoletter) = [] := by
      rw [List.filter_eq_nil_iff]
      intro t ht
      simp [(hkey t ht).2]
    rw [hnil]
    rfl
  · have hnil : (flatPool linkFind (taxFilter table taxonomy_filter taxonomy_value)).filter
        (fun k => k.1 == glycoletter) = [] := by
      rw [List.filter_eq_nil_iff]
      intro t ht
      simp [(hkey t ht).1]
    rw [hnil]
    rfl
  · have hnil : (flatPool linkFind (taxFilter table taxonomy_filter taxonomy_value)).filter
        (fun k => k.1 == glycoletter) = [] := by
      rw [List.filter_eq_nil_iff]
      intro t ht
      simp [(hkey t ht).1]
    rw [hnil]
    rfl
  · rfl

/-- C8: For a glycoletter absent from every glycan of the filtered set —
and likewise for an empty filtered set — the Main/Side Counter returns
`(0, 0)` and the Context Characterizer (under a recognized mode, with a
bond extractor whose triple fields are substrings of the glycan it was
given) returns its label with empty partner and count lists; neither
function fails. -/
theorem C8_absent_or_empty_degrades (linkFind : String → List BondTriple)
    (table : List GlycanRecord) (glycoletter mode taxonomy_filter taxonomy_value : String)
    (hmode : mode = "bond" ∨ mode = "sugar" ∨ mode = "sugarbond")
    (hext : ∀ r ∈ taxFilter table taxonomy_filter taxonomy_value, ∀ t ∈ linkFind r.glycan,
      t.1.data <:+: r.glycan.data ∧ t.2.1.data <:+: r.glycan.data
        ∧ t.2.2.data <:+: r.glycan.data) :
    ((∀ r ∈ taxFilter table taxonomy_filter taxonomy_value,
        ¬ (glycoletter.data <:+: r.glycan.data)) →
      main_v_side_branch table glycoletter taxonomy_filter taxonomy_value = (0, 0)
      ∧ characterize_context linkFind table glycoletter mode taxonomy_filter taxonomy_value
          = .ok (labelFor mode glycoletter ++ " (" ++ taxonomy_filter ++ " = "
              ++ taxonomy_value ++ ")", [], []))
    ∧ (taxFilter table taxonomy_filter taxonomy_value = [] →
      main_v_side_branch table glycoletter taxonomy_filter taxonomy_value = (0, 0)
      ∧ characterize_context linkFind table glycoletter mode taxonomy_filter taxonomy_value
          = .ok (labelFor mode glycoletter ++ " (" ++ taxonomy_filter ++ " = "
              ++ taxonomy_value ++ ")", [], [])) := by
  constructor
  · intro habs
    constructor
    · exact main_v_side_eq_zero fun r hr => finditer_eq_nil (habs r hr)
    · rw [characterize_context_eq linkFind table glycoletter mode taxonomy_filter
        taxonomy_value hmode, ctxPool_eq_nil hext habs]
      rfl
  · intro hemp
    constructor
    · apply main_v_side_eq_zero
      intro r hr
      rw [hemp] at hr
      cases hr
    · rw [characterize_context_eq linkFind table glycoletter mode taxonomy_filter
        taxonomy_value hmode]
      have hp : ctxPool linkFind table glycoletter mode taxonomy_filter taxonomy_value = [] := by
        simp [ctxPool, hemp, flatPool]
      rw [hp]
      rfl

theorem C8_absent_or_empty_degrades_witness :
    main_v_side_branch sampleTable "Xyz" "Kingdom" "All" = (0, 0)
    ∧ characterize_context sampleLinkFind sampleTable "Xyz" "bond" "Kingdom" "All"
        = .ok ("Observed monosaccharides making bond Xyz (Kingdom = All)", [], []) :=
  (C8_absent_or_empty_degrades sampleLinkFind sampleTable "Xyz" "bond" "Kingdom" "All"
    (Or.inl rfl) (by decide)).1 (by decide)

end Glycobase
